import Mathlib

/-!
# SoulHound — verification of the playback queue, presence tracking and
# playback-controller logic

Shallow embedding of the Go sources of the `soulhound` Discord music bot:

* `internal/queue/queue.go` — the playback queue (`Queue` with a track list
  and a `current` cursor, `-1` meaning "empty").
* `internal/bot/bot.go` — voice-state tracking (`voiceStates` map keyed by
  `guildID:userID`), the command handlers (`handlePause`, `handleRefreshVoice`),
  the voice-detection chain of `messageHandler`, and the `startPlaying`
  playback loop with its streaming retry logic.

Go slices become Lean lists, Go `int` becomes `Int` (Go `%` on `int` truncates
toward zero, which is `Int.tmod`), Go maps become association lists, and
fallible operations return `Except`/`Option`.
-/

namespace SoulHound

/-! ## Queue embedding — `internal/queue/queue.go` -/

/-- Model of `queue.Track` (queue.go lines 8–15). -/
structure Track where
  title : String
  artist : String
  url : String
  platform : String
  duration : Int
  genre : String
deriving DecidableEq, Repr

/-- The two sentinel errors of queue.go lines 23–26
(`ErrQueueEmpty`, `ErrInvalidIndex`). -/
inductive QueueError where
  | queueEmpty
  | invalidIndex
deriving DecidableEq, Repr

/-- Model of `queue.Queue` (queue.go lines 17–21): a track slice plus the `current`
cursor.  The mutex only serializes access and has no sequential content. -/
structure Queue where
  tracks : List Track
  current : Int
deriving DecidableEq, Repr

/-- Model of `NewQueue` (queue.go lines 28–33). -/
def NewQueue : Queue := { tracks := [], current := -1 }

/-- Model of `(*Queue).Add` (queue.go lines 35–42): append, and if the cursor was `-1`
set it to `0`. -/
def Queue.Add (q : Queue) (track : Track) : Queue :=
  { tracks := q.tracks ++ [track]
    current := if q.current = -1 then 0 else q.current }

/-- Model of `(*Queue).Remove` (queue.go lines 44–59).  Go's
`append(q.tracks[:index], q.tracks[index+1:]...)` deletes the element at
`index`; afterwards the cursor is reset to `-1` if the slice became empty and
decremented if `index <= q.current`. -/
def Queue.Remove (q : Queue) (index : Int) : Except QueueError Queue :=
  if index < 0 ∨ (q.tracks.length : Int) ≤ index then
    .error .invalidIndex
  else
    let tracks := q.tracks.take index.toNat ++ q.tracks.drop (index.toNat + 1)
    if tracks.length = 0 then
      .ok { tracks := tracks, current := -1 }
    else if index ≤ q.current then
      .ok { tracks := tracks, current := q.current - 1 }
    else
      .ok { tracks := tracks, current := q.current }

/-- Model of `(*Queue).Current` (queue.go lines 61–69): error when the cursor is
outside the slice, otherwise the track under the cursor. -/
def Queue.Current (q : Queue) : Except QueueError Track :=
  if h : q.current < 0 ∨ (q.tracks.length : Int) ≤ q.current then
    .error .queueEmpty
  else
    .ok (q.tracks.get ⟨q.current.toNat, by omega⟩)

/-- Go `%` on `int` truncates toward zero; with a natural-number modulus the
`toNat` of the result is always below the modulus. -/
theorem tmod_toNat_lt (a : Int) (n : Nat) (hn : n ≠ 0) :
    (Int.tmod a (Int.ofNat n)).toNat < n := by
  have hn' : 0 < n := Nat.pos_of_ne_zero hn
  cases a with
  | ofNat m =>
      have h1 : Int.tmod (Int.ofNat m) (Int.ofNat n) = Int.ofNat (m % n) := rfl
      rw [h1]
      simpa using Nat.mod_lt m hn'
  | negSucc m =>
      have h1 : Int.tmod (Int.negSucc m) (Int.ofNat n) =
          -Int.ofNat ((m + 1) % n) := rfl
      rw [h1]
      have h2 : (-Int.ofNat ((m + 1) % n)).toNat = 0 := by
        rw [Int.toNat_eq_zero]
        exact neg_nonpos.mpr (Int.natCast_nonneg _)
      rw [h2]
      exact hn'

/-- Model of `(*Queue).Next` (queue.go lines 71–81): error when the slice is empty,
otherwise `current = (current + 1) % len` (Go truncated `%`, i.e. `Int.tmod`)
and the track now under the cursor is returned together with the updated
queue (the Go method mutates the receiver and returns the track). -/
def Queue.Next (q : Queue) : Except QueueError (Track × Queue) :=
  if h : q.tracks.length = 0 then
    .error .queueEmpty
  else
    let c : Int := Int.tmod (q.current + 1) (Int.ofNat q.tracks.length)
    .ok (q.tracks.get ⟨c.toNat, tmod_toNat_lt _ _ h⟩,
         { q with current := c })

/-- Model of `(*Queue).List` (queue.go lines 83–87): a defensive copy of the slice. -/
def Queue.snapshotList (q : Queue) : List Track := q.tracks

/-- Model of `(*Queue).Clear` (queue.go lines 89–94). -/
def Queue.Clear (_q : Queue) : Queue := { tracks := [], current := -1 }

/-! ## Bot embedding — `internal/bot/bot.go`

The bot keeps a `voiceStates map[string]*VoiceStateInfo` keyed by the string
`guildID + ":" + userID`, a `voiceConn map[string]*VoiceConnection` keyed by
guild, a shared `queue.Queue` and a global `isPlaying` flag, all guarded by
one mutex.  Maps become association lists whose `lookup` is the map read;
map writes keep one entry per key. -/

/-- Model of Go's `strings.HasPrefix` on the underlying character lists
(`String.startsWith` itself does not reduce in the kernel). -/
def hasPrefixGo (s pre : String) : Bool := pre.toList.isPrefixOf s.toList

/-- Model of the fields of `discordgo.VoiceState` that bot.go reads:
`UserID`, `ChannelID`, `GuildID` (an empty `ChannelID` means "left voice"). -/
structure VoiceState where
  userID : String
  channelID : String
  guildID : String
deriving DecidableEq, Repr

/-- Model of `VoiceStateInfo` (bot.go lines 31–35). -/
structure VoiceStateInfo where
  voiceState : VoiceState
  lastUpdate : Int
  validated : Bool
deriving DecidableEq, Repr

/-- The `voiceStates` map of the bot, as an association list keyed by
`guildID ++ ":" ++ userID` exactly as the Go code builds its keys. -/
def VoiceStates := List (String × VoiceStateInfo)

/-- Go map write `m[k] = v`: at most one entry per key survives. -/
def mapInsert {α : Type} (l : List (String × α)) (k : String) (v : α) :
    List (String × α) :=
  l.filter (fun p => p.1 != k) ++ [(k, v)]

/-- Go map `delete(m, k)`. -/
def mapErase {α : Type} (l : List (String × α)) (k : String) :
    List (String × α) :=
  l.filter (fun p => p.1 != k)

/-- Model of `voiceStateUpdateHandler` (bot.go lines 113–155): on an empty
`ChannelID` the `guildID:userID` entry is deleted, otherwise it is
overwritten with a fresh record stamped `time.Now()` (`now`). -/
def voiceStateUpdate (states : VoiceStates) (guildID userID channelID : String)
    (now : Int) : VoiceStates :=
  let key := guildID ++ ":" ++ userID
  if channelID == "" then
    mapErase states key
  else
    mapInsert states key
      { voiceState := { userID := userID, channelID := channelID, guildID := guildID }
        lastUpdate := now
        validated := true }

/-- Model of `handleRefreshVoice` (bot.go lines 1302–1365), state part only:
every `voiceStates` entry whose key has the prefix `guildID ++ ":"` is
deleted, then — unless the `s.Guild` API call failed (`apiGuild = none`) —
each snapshot voice state with a non-empty channel is inserted under
`vs.GuildID ++ ":" ++ vs.UserID`, stamped `time.Now()` (`now`).  The code
never consults the `lastUpdate` timestamps of the cleared entries. -/
def handleRefreshVoiceStates (states : VoiceStates) (guildID : String)
    (apiGuild : Option (List VoiceState)) (now : Int) : VoiceStates :=
  let cleared := states.filter (fun p => !(hasPrefixGo p.1 (guildID ++ ":")))
  match apiGuild with
  | none => cleared
  | some vss =>
      vss.foldl
        (fun acc vs =>
          if vs.channelID != "" then
            mapInsert acc (vs.guildID ++ ":" ++ vs.userID)
              { voiceState := vs, lastUpdate := now, validated := true }
          else acc)
        cleared

/-- The internal-tracking read used at bot.go lines 206 and 239: the entry
must exist and carry a non-empty channel. -/
def storeLookupInfo (states : VoiceStates) (guildID userID : String) :
    Option VoiceState :=
  match states.lookup (guildID ++ ":" ++ userID) with
  | some info =>
      if info.voiceState.channelID != "" then some info.voiceState else none
  | none => none

/-- The external collaborators consulted by the fallback methods 2–5 of
`messageHandler` (bot.go lines 218–291): the `s.Guild` REST snapshot, the
`s.State.VoiceState` cache, the `s.State.Guild` cache, and the
`s.State.VoiceState` retry after the 100 ms delay. -/
structure DiscordEnv where
  apiGuild : Option (List VoiceState)
  cacheVS : Option VoiceState
  stateGuild : Option (List VoiceState)
  delayedVS : Option VoiceState
deriving DecidableEq, Repr

/-- Model of the voice-detection chain of `messageHandler` (bot.go lines
198–307).  Returns the resolved channel (if any) together with the number of
`s.Guild` authoritative-snapshot fetches performed.  Method 1 reads the
internal `voiceStates` tracking and, on a hit, skips every other method;
otherwise method 2 performs the one `s.Guild` fetch (re-checking the
internal tracking when the API does not show the user), method 3 the cache
lookup, method 4 the cached-guild scan, and method 5 the delayed retry. -/
def resolveVoiceChannel (states : VoiceStates) (guildID userID : String)
    (env : DiscordEnv) : Option String × Nat :=
  match storeLookupInfo states guildID userID with
  | some vs => (some vs.channelID, 0)
  | none =>
      let afterApi : Option VoiceState :=
        match env.apiGuild with
        | none => none
        | some vss =>
            match vss.find? (fun vs => vs.userID == userID && vs.channelID != "") with
            | some vs => some vs
            | none => storeLookupInfo states guildID userID
      let afterCache : Option VoiceState :=
        match afterApi with
        | some vs => some vs
        | none =>
            match env.cacheVS with
            | some vs => if vs.channelID != "" then some vs else none
            | none => none
      let afterStateGuild : Option VoiceState :=
        match afterCache with
        | some vs => some vs
        | none =>
            match env.stateGuild with
            | none => none
            | some vss =>
                vss.find? (fun vs => vs.userID == userID && vs.channelID != "")
      let afterDelay : Option VoiceState :=
        match afterStateGuild with
        | some vs => some vs
        | none =>
            match env.delayedVS with
            | some vs => if vs.channelID != "" then some vs else none
            | none => none
      match afterDelay with
      | some vs => (some vs.channelID, 1)
      | none => (none, 1)

/-- Model of `VoiceConnection` (bot.go lines 37–43); the dca handles are
abstracted to their presence and the stream's paused flag. -/
structure VoiceConnection where
  guildID : String
  channelID : String
  hasEncoder : Bool
  hasStream : Bool
  streamPaused : Bool
deriving DecidableEq, Repr

/-- The mutex-guarded mutable fields of `Bot` (bot.go lines 19–28) that the
pause/loop logic touches. -/
structure BotState where
  queue : Queue
  voiceConn : List (String × VoiceConnection)
  isPlaying : Bool
deriving DecidableEq, Repr

/-- Model of `handlePause` (bot.go lines 448–464): if nothing is playing it
acknowledges; otherwise it sets `SetPaused(true)` on every non-nil stream
and clears the global `isPlaying` flag. -/
def handlePause (b : BotState) : BotState × String :=
  if !b.isPlaying then
    (b, "Nothing is playing")
  else
    ({ b with
        voiceConn := b.voiceConn.map fun p =>
          (p.1, if p.2.hasStream then { p.2 with streamPaused := true } else p.2)
        isPlaying := false },
     "Playback paused")

/-- Model of the guarded prologue of `startPlaying` (bot.go lines 611–618):
under the mutex, if `isPlaying` is already set the goroutine returns at once
touching nothing; otherwise it sets the flag and becomes the loop.  The
returned Bool says whether this call became the active playback loop. -/
def startPlayingEntry (b : BotState) : BotState × Bool :=
  if b.isPlaying then (b, false)
  else ({ b with isPlaying := true }, true)

/-- Model of the head of each `startPlaying` loop iteration (bot.go lines
620–633): the loop exits (`none`) when `isPlaying` has been cleared or when
`queue.Current()` errors; otherwise it proceeds with the current track. -/
def startPlayingLoopCheck (b : BotState) : Option Track :=
  if b.isPlaying = false then none
  else
    match b.queue.Current with
    | .error _ => none
    | .ok track => some track

/-- Model of the mock-URL test of bot.go line 676 (also line 758):
`strings.HasPrefix(streamURL, "spotify_mock_") || strings.HasPrefix(streamURL, "mock_")`. -/
def isMockURL (url : String) : Bool :=
  hasPrefixGo url "spotify_mock_" || hasPrefixGo url "mock_"

/-- Outcome of the per-connection streaming retry loop of `startPlaying`
(bot.go lines 662–696): how many `streamAudio` attempts were made, the
successive sleep durations (in seconds, the Go base unit
`time.Duration(retryCount) * time.Second`), and whether a stream succeeded. -/
structure RetryResult where
  attempts : Nat
  waits : List Nat
  streamingSuccessful : Bool
deriving DecidableEq, Repr

/-- Model of the inner retry loop `for retryCount < maxRetries` of
`startPlaying` (bot.go lines 668–692) for one voice connection.
`attemptFails k` tells whether the `k`-th `streamAudio` call fails.  On a
failure `retryCount` is incremented, mock stream URLs break out of the loop
immediately, and otherwise the loop sleeps `retryCount` seconds whenever
`retryCount < maxRetries` before re-testing the loop condition. -/
def streamRetryGo (streamURL : String) (attemptFails : Nat → Bool)
    (maxRetries retryCount attempts : Nat) (waits : List Nat) : RetryResult :=
  if h : retryCount < maxRetries then
    if attemptFails attempts then
      if isMockURL streamURL then
        { attempts := attempts + 1, waits := waits, streamingSuccessful := false }
      else
        streamRetryGo streamURL attemptFails maxRetries (retryCount + 1)
          (attempts + 1)
          (if retryCount + 1 < maxRetries then waits ++ [retryCount + 1] else waits)
    else
      { attempts := attempts + 1, waits := waits, streamingSuccessful := true }
  else
    { attempts := attempts, waits := waits, streamingSuccessful := false }
termination_by maxRetries - retryCount
decreasing_by omega

/-- One track's streaming protocol for one connected guild: `maxRetries := 3`,
`retryCount := 0` (bot.go lines 663–664; the outer guild loop resets
`retryCount` to 0 at line 695, so each connection runs this protocol). -/
def streamTrackWithRetries (streamURL : String) (attemptFails : Nat → Bool) :
    RetryResult :=
  streamRetryGo streamURL attemptFails 3 0 0 []

/-- What the playback loop does after the streaming step of an iteration. -/
inductive LoopOutcome where
  | nextIteration
  | stops
deriving DecidableEq, Repr

/-- Model of the tail of a `startPlaying` iteration (bot.go lines 703–717):
when smart play is enabled the recommendation tracks `recs` are appended
(`addRecommendations`, bot.go lines 869–892; `recs = []` otherwise), then
`queue.Next()` advances the cursor; an error stops the loop, otherwise the
loop runs its next iteration. -/
def afterStreamingAdvance (q : Queue) (recs : List Track) : Queue × LoopOutcome :=
  let q1 := recs.foldl Queue.Add q
  match q1.Next with
  | .error _ => (q1, .stops)
  | .ok (_, q2) => (q2, .nextIteration)

/-! ## Concrete fixtures used by the closed theorems and witnesses -/

/-- A first sample track. -/
def trackA : Track :=
  { title := "Track A", artist := "Artist A", url := "urlA"
    platform := "yt", duration := 100, genre := "pop" }

/-- A second sample track. -/
def trackB : Track :=
  { title := "Track B", artist := "Artist B", url := "urlB"
    platform := "yt", duration := 120, genre := "rock" }

/-- The cursor invariant claimed by the spec for `queue.Queue`: the cursor is
`-1` exactly when the track sequence is empty, and otherwise a valid index. -/
def cursorInvariantOK (q : Queue) : Prop :=
  (q.tracks = [] ∧ q.current = -1) ∨
  (q.tracks ≠ [] ∧ 0 ≤ q.current ∧ q.current < (q.tracks.length : Int))

instance (q : Queue) : Decidable (cursorInvariantOK q) := by
  unfold cursorInvariantOK; infer_instance

/-- Queue states reachable from the empty queue through the queue API. -/
inductive Reachable : Queue → Prop where
  | new : Reachable NewQueue
  | add {q : Queue} (t : Track) : Reachable q → Reachable (q.Add t)
  | remove {q q' : Queue} (i : Int) : Reachable q → q.Remove i = .ok q' →
      Reachable q'
  | next {q q' : Queue} {t : Track} : Reachable q → q.Next = .ok (t, q') →
      Reachable q'
  | clear {q : Queue} : Reachable q → Reachable q.Clear

/-- A sample voice-state record for the C6 fixtures. -/
def vsW : VoiceState := { userID := "u", channelID := "chan", guildID := "g" }

/-- A store that already holds a voice channel for `(g, u)`. -/
def statesW : VoiceStates :=
  [("g:u", { voiceState := vsW, lastUpdate := 42, validated := true })]

/-- A fully populated external environment; resolution from the store must
not consult any of it. -/
def envW : DiscordEnv :=
  { apiGuild := some [{ userID := "u", channelID := "other", guildID := "g" }]
    cacheVS := some { userID := "u", channelID := "other2", guildID := "g" }
    stateGuild := some []
    delayedVS := none }

/-- A bot state that is mid-playback: one track, one connection with a live
stream, `isPlaying` set. -/
def pauseDemoState : BotState :=
  { queue := { tracks := [trackA], current := 0 }
    voiceConn := [("g",
      { guildID := "g", channelID := "ch", hasEncoder := true
        hasStream := true, streamPaused := false })]
    isPlaying := true }

/-- A bot state with the playback loop not yet running. -/
def idleBotState : BotState :=
  { queue := { tracks := [trackA], current := 0 }, voiceConn := [], isPlaying := false }

/-- A bot state whose playback loop is already running. -/
def playingBotState : BotState :=
  { queue := { tracks := [trackA], current := 0 }, voiceConn := [], isPlaying := true }

/-! ## Helper lemmas -/

/-- Truncated `%` by a natural modulus, on a natural dividend, is the natural
`%` (the `ofNat` case of the `Int.tmod` definition). -/
theorem tmod_natCast_ofNat (m n : Nat) :
    Int.tmod (↑m) (Int.ofNat n) = Int.ofNat (m % n) := rfl

/-- Bounds for Go `%` with a nonnegative dividend and positive modulus. -/
theorem tmod_bounds_of_nonneg (a : Int) (n : Nat) (hn : n ≠ 0) (ha : 0 ≤ a) :
    0 ≤ Int.tmod a (Int.ofNat n) ∧ Int.tmod a (Int.ofNat n) < (n : Int) := by
  obtain ⟨m, rfl⟩ := Int.eq_ofNat_of_zero_le ha
  rw [tmod_natCast_ofNat]
  have h1 := Nat.mod_lt m (Nat.pos_of_ne_zero hn)
  constructor
  · show (0 : ℤ) ≤ ((m % n : Nat) : ℤ)
    exact_mod_cast Nat.zero_le (m % n)
  · show ((m % n : Nat) : ℤ) < ((n : Nat) : ℤ)
    exact_mod_cast h1

/-- A list is a `isPrefixOf` of itself followed by anything. -/
theorem isPrefixOf_append_self {α : Type} [BEq α] [LawfulBEq α]
    (l₁ l₂ : List α) : l₁.isPrefixOf (l₁ ++ l₂) = true := by
  induction l₁ with
  | nil => simp
  | cons a t ih => simp [List.isPrefixOf_cons₂, ih]

/-- The Go key `g ++ ":" ++ u` always has the room selector `g ++ ":"` as a
prefix of itself. -/
theorem hasPrefixGo_roomKey (g u : String) :
    hasPrefixGo (g ++ ":" ++ u) (g ++ ":") = true := by
  unfold hasPrefixGo
  have h1 : (g ++ ":" ++ u).toList = (g ++ ":").toList ++ u.toList := by
    show ((g ++ ":") ++ u).data = (g ++ ":").data ++ u.data
    exact String.data_append _ _
  rw [h1]
  exact isPrefixOf_append_self _ _

/-- Association-list read distributes over append. -/
theorem lookup_append {α : Type} (l₁ l₂ : List (String × α)) (k : String) :
    (l₁ ++ l₂).lookup k =
      ((l₁.lookup k).orElse (fun _ => l₂.lookup k)) := by
  induction l₁ with
  | nil => rfl
  | cons p t ih =>
      by_cases h : k == p.1
      · simp [List.lookup, h]
      · simp only [List.cons_append, List.lookup]
        rw [Bool.of_not_eq_true h]
        exact ih

/-- Filtering by a predicate that rejects every pair carrying key `k` makes
the read of `k` fail. -/
theorem lookup_filterKey_none {α : Type} (l : List (String × α)) (k : String)
    (q : String × α → Bool) (hq : ∀ p ∈ l, p.1 = k → q p = false) :
    (l.filter q).lookup k = none := by
  induction l with
  | nil => rfl
  | cons p t ih =>
      have iht := ih (fun p' hp' => hq p' (List.mem_cons_of_mem _ hp'))
      by_cases hqp : q p = true
      · rw [List.filter_cons_of_pos hqp]
        have hk : (k == p.1) = false := by
          by_contra hkk
          have : p.1 = k := (eq_of_beq (by simpa using hkk)).symm
          rw [hq p (List.mem_cons_self _ _) this] at hqp
          exact Bool.false_ne_true hqp
        simp [List.lookup, hk, iht]
      · rw [List.filter_cons_of_neg (by simpa using hqp)]
        exact iht

/-- Filtering never resurrects a key that was already absent. -/
theorem lookup_filter_none_of_none {α : Type} (l : List (String × α))
    (k : String) (q : String × α → Bool) (h : l.lookup k = none) :
    (l.filter q).lookup k = none := by
  induction l with
  | nil => rfl
  | cons p t ih =>
      have hk : (k == p.1) = false := by
        by_contra hkk
        simp [List.lookup, Bool.of_not_eq_false hkk] at h
      have ht : t.lookup k = none := by
        simpa [List.lookup, hk] using h
      by_cases hqp : q p = true
      · rw [List.filter_cons_of_pos hqp]
        simp [List.lookup, hk, ih ht]
      · rw [List.filter_cons_of_neg (by simpa using hqp)]
        exact ih ht

/-- A Go map write under a different key never creates an entry for `k`. -/
theorem lookup_mapInsert_none {α : Type} (l : List (String × α))
    (k k' : String) (v : α) (hne : k ≠ k') (h : l.lookup k = none) :
    (mapInsert l k' v).lookup k = none := by
  unfold mapInsert
  rw [lookup_append, lookup_filter_none_of_none _ _ _ h]
  have hk : (k == k') = false := by simpa using hne
  simp [List.lookup, hk]

/-- Every queue state reachable through the API keeps the cursor in
`[-1, length)` — in particular `Next`'s cursor argument is never below `-1`,
which justifies the `-1 ≤ c` hypotheses of the `Next` theorems. -/
theorem reachable_cursor_bounds {q : Queue} (h : Reachable q) :
    -1 ≤ q.current ∧ q.current < (q.tracks.length : Int) := by
  induction h with
  | new => exact ⟨by simp [NewQueue], by simp [NewQueue]⟩
  | add t _ ih =>
      obtain ⟨ih1, ih2⟩ := ih
      constructor
      · simp only [Queue.Add]
        split <;> omega
      · simp only [Queue.Add, List.length_append, List.length_cons,
          List.length_nil]
        split <;> (push_cast; omega)
  | @remove q q' i _ hrem ih =>
      obtain ⟨ih1, ih2⟩ := ih
      simp only [Queue.Remove] at hrem
      split at hrem
      · simp at hrem
      · rename_i hidx
        have hlen' : (List.take i.toNat q.tracks ++
            List.drop (i.toNat + 1) q.tracks).length = q.tracks.length - 1 := by
          rw [List.length_append, List.length_take, List.length_drop]
          omega
        split at hrem
        · simp only [Except.ok.injEq] at hrem
          subst hrem
          dsimp only
          constructor <;> omega
        · split at hrem <;>
            (simp only [Except.ok.injEq] at hrem; subst hrem; dsimp only;
              constructor <;> omega)
  | @next q q' t _ hnext ih =>
      obtain ⟨ih1, ih2⟩ := ih
      simp only [Queue.Next] at hnext
      split at hnext
      · simp at hnext
      · rename_i hlen0
        simp only [Except.ok.injEq, Prod.mk.injEq] at hnext
        obtain ⟨-, hq'⟩ := hnext
        subst hq'
        have hb := tmod_bounds_of_nonneg (q.current + 1) q.tracks.length hlen0
          (by omega)
        have hb1 := hb.1
        have hb2 := hb.2
        dsimp only
        exact ⟨by omega, hb2⟩
  | clear _ _ =>
      exact ⟨by simp [Queue.Clear], by simp [Queue.Clear]⟩

/-! ## Claim theorems -/

/-- Claim C1 (code evaluation at the failing input).  The spec's example
scenario: from the empty queue, `add(TrackA)` gives cursor 0; `add(TrackB)`
keeps cursor 0 with list `[A, B]`; but `remove(0)` leaves the list `[B]`
with cursor `-1` (not 0 as claimed), and `Current()` then reports
`ErrQueueEmpty` on the non-empty queue instead of returning B: the
`index <= q.current` decrement in `Remove` drags the cursor below 0. -/
theorem queue_remove_at_cursor_scenario :
    (NewQueue.Add trackA).current = 0 ∧
    ((NewQueue.Add trackA).Add trackB).current = 0 ∧
    ((NewQueue.Add trackA).Add trackB).tracks = [trackA, trackB] ∧
    ((NewQueue.Add trackA).Add trackB).Remove 0 =
      .ok { tracks := [trackB], current := -1 } ∧
    (Queue.mk [trackB] (-1)).Current = .error .queueEmpty :=
  ⟨rfl, rfl, rfl, rfl, rfl⟩

/-- Claim C2 (code evaluation at the failing input).  The reachable
add/add/remove(0) sequence produces a state with one track but cursor `-1`,
violating the claimed invariant "cursor is `-1` exactly when the sequence is
empty, otherwise a valid index". -/
theorem queue_cursor_invariant_violated :
    ((NewQueue.Add trackA).Add trackB).Remove 0 =
      .ok { tracks := [trackB], current := -1 } ∧
    ¬ cursorInvariantOK { tracks := [trackB], current := -1 } :=
  ⟨rfl, by decide⟩

/-- Claim C10: `Next` returns `ErrQueueEmpty` exactly when the track list is
empty, for every cursor value `≥ -1` (every reachable cursor, including the
out-of-range `-1`-on-non-empty states); on a non-empty list it always
succeeds and leaves the cursor at a valid index. -/
theorem next_error_iff_empty (ts : List Track) (c : Int) (h : -1 ≤ c) :
    ((Queue.mk ts c).Next = .error .queueEmpty ↔ ts = []) ∧
    (ts ≠ [] → ∃ tr q', (Queue.mk ts c).Next = .ok (tr, q') ∧
      0 ≤ q'.current ∧ q'.current < (ts.length : Int) ∧ q'.tracks = ts) := by
  by_cases hts : ts = []
  · subst hts
    exact ⟨by simp [Queue.Next], fun hne => absurd rfl hne⟩
  · have hlen : ts.length ≠ 0 := by simpa [List.length_eq_zero] using hts
    have hb := tmod_bounds_of_nonneg (c + 1) ts.length hlen (by omega)
    constructor
    · constructor
      · intro herr
        unfold Queue.Next at herr
        rw [dif_neg hlen] at herr
        exact absurd herr (by simp)
      · intro h'
        exact absurd h' hts
    · intro _
      refine ⟨ts.get ⟨(Int.tmod (c + 1) (Int.ofNat ts.length)).toNat,
          tmod_toNat_lt _ _ hlen⟩,
        { tracks := ts, current := Int.tmod (c + 1) (Int.ofNat ts.length) },
        ?_, hb.1, hb.2, rfl⟩
      unfold Queue.Next
      rw [dif_neg hlen]

/-- Witness for C10 at the concrete out-of-range cursor 5 on a two-element
list: `Next` does not error and lands on a valid index. -/
theorem next_error_iff_empty_witness :
    (-1 : Int) ≤ 5 ∧
    ((Queue.mk [trackA, trackB] 5).Next = .error .queueEmpty ↔
      [trackA, trackB] = ([] : List Track)) ∧
    ∃ tr q', (Queue.mk [trackA, trackB] 5).Next = .ok (tr, q') ∧
      0 ≤ q'.current ∧ q'.current < (([trackA, trackB] : List Track).length : Int) ∧
      q'.tracks = [trackA, trackB] :=
  ⟨by decide, (next_error_iff_empty [trackA, trackB] 5 (by decide)).1,
    (next_error_iff_empty [trackA, trackB] 5 (by decide)).2 (by decide)⟩

/-- Claim C8: on a non-empty queue `Next` moves the cursor forward
circularly — to `c + 1`, except that it wraps to index 0 right after the
last element — and on a single-element queue every `Next` call returns that
same element with cursor 0 (so repeated calls keep returning it). -/
theorem next_advances_circularly (ts : List Track) (c : Int) (t : Track)
    (c' : Int) :
    (ts ≠ [] → -1 ≤ c → c < (ts.length : Int) →
      ∃ tr q', (Queue.mk ts c).Next = .ok (tr, q') ∧ q'.tracks = ts ∧
        q'.current = (if c + 1 = (ts.length : Int) then 0 else c + 1)) ∧
    (Queue.mk [t] c').Next = .ok (t, Queue.mk [t] 0) := by
  constructor
  · intro hne h1 h2
    have hlen : ts.length ≠ 0 := by simpa [List.length_eq_zero] using hne
    obtain ⟨m, hm⟩ := Int.eq_ofNat_of_zero_le (show (0:ℤ) ≤ c + 1 by omega)
    have hval : Int.tmod (c + 1) (Int.ofNat ts.length) =
        (if c + 1 = (ts.length : Int) then 0 else c + 1) := by
      rw [hm, tmod_natCast_ofNat]
      by_cases hEq : m = ts.length
      · subst hEq
        simp [Nat.mod_self]
      · have hlt : m < ts.length := by omega
        rw [Nat.mod_eq_of_lt hlt]
        have hne2 : (↑m : ℤ) ≠ (ts.length : ℤ) := by exact_mod_cast hEq
        rw [if_neg hne2]
        rfl
    refine ⟨ts.get ⟨(Int.tmod (c + 1) (Int.ofNat ts.length)).toNat,
        tmod_toNat_lt _ _ hlen⟩,
      { tracks := ts, current := Int.tmod (c + 1) (Int.ofNat ts.length) },
      ?_, rfl, hval⟩
    unfold Queue.Next
    rw [dif_neg hlen]
  · have hone : Int.tmod (c' + 1) (Int.ofNat 1) = 0 := by
      cases hc : c' + 1 with
      | ofNat m =>
          rw [show Int.tmod (Int.ofNat m) (Int.ofNat 1) =
            Int.ofNat (m % 1) from rfl]
          simp [Nat.mod_one]
      | negSucc m =>
          rw [show Int.tmod (Int.negSucc m) (Int.ofNat 1) =
            -Int.ofNat ((m + 1) % 1) from rfl]
          simp [Nat.mod_one]
    simp [Queue.Next, hone]

/-- Witness for C8: wrap-around from the last index of a two-element list,
and the single-element queue returning its only track with cursor 0 at three
successive cursor values. -/
theorem next_advances_circularly_witness :
    (∃ tr q', (Queue.mk [trackA, trackB] 1).Next = .ok (tr, q') ∧
      q'.tracks = [trackA, trackB] ∧
      q'.current = (if (1 : Int) + 1 = (([trackA, trackB] : List Track).length : Int)
        then 0 else (1 : Int) + 1)) ∧
    (Queue.mk [trackA] 0).Next = .ok (trackA, Queue.mk [trackA] 0) ∧
    (Queue.mk [trackA] (-1)).Next = .ok (trackA, Queue.mk [trackA] 0) :=
  ⟨(next_advances_circularly [trackA, trackB] 1 trackA 0).1 (by decide)
      (by decide) (by decide),
   (next_advances_circularly [trackA] 0 trackA 0).2,
   (next_advances_circularly [trackA] 0 trackA (-1)).2⟩

/-- Folding the refresh insertions over snapshot entries never creates an
entry for a key none of them carries. -/
theorem lookup_refreshFold_none (vss : List VoiceState) (acc : VoiceStates)
    (k : String) (now : Int) (hacc : acc.lookup k = none)
    (hvss : ∀ vs ∈ vss, vs.guildID ++ ":" ++ vs.userID ≠ k) :
    (vss.foldl
      (fun acc vs =>
        if vs.channelID != "" then
          mapInsert acc (vs.guildID ++ ":" ++ vs.userID)
            { voiceState := vs, lastUpdate := now, validated := true }
        else acc)
      acc).lookup k = none := by
  induction vss generalizing acc with
  | nil => exact hacc
  | cons vs rest ih =>
      simp only [List.foldl_cons]
      apply ih
      · by_cases hch : (vs.channelID != "") = true
        · rw [if_pos hch]
          exact lookup_mapInsert_none _ _ _ _
            (Ne.symm (hvss vs (List.mem_cons_self _ _))) hacc
        · rw [if_neg hch]
          exact hacc
      · exact fun v hv => hvss v (List.mem_cons_of_mem _ hv)

/-- Store reads fail on keys absent from the map. -/
theorem storeLookup_none_of_lookup_none (states : VoiceStates)
    (g u : String) (h : states.lookup (g ++ ":" ++ u) = none) :
    storeLookupInfo states g u = none := by
  unfold storeLookupInfo
  rw [h]

/-- Claim C3, counterexample.  The claim says a record newer than the
snapshot fetch survives reconciliation: `recordJoin(g, u, c, t1 = 10)`
followed by reconciling guild `g` against a snapshot without `u`
(fetched at `t0 = 5 < 10`) should leave `lookup(g, u) = c`.  The code's
`handleRefreshVoice` deletes every `g:`-prefixed entry without consulting
any timestamp, so the lookup comes back empty. -/
theorem refresh_ignores_newer_records_cex :
    (5 : Int) < 10 ∧
    storeLookupInfo (voiceStateUpdate [] "g" "u" "c" 10) "g" "u" =
      some { userID := "u", channelID := "c", guildID := "g" } ∧
    storeLookupInfo
      (handleRefreshVoiceStates (voiceStateUpdate [] "g" "u" "c" 10) "g"
        (some []) 5)
      "g" "u" = none := by
  refine ⟨by decide, by decide, by decide⟩

/-- Claim C3 as amended: reconciling a room against an authoritative
snapshot replaces all of the room's records with the snapshot's contents
unconditionally — record timestamps are never consulted, so a record newer
than the snapshot fetch is dropped, not preserved: after
`recordJoin(g,u,c,t1)` and a reconcile of room `g` whose snapshot has no
entry keyed `g:u`, at any fetch/refresh time (in particular `t0 < t1`),
`lookup(g,u)` returns not-found. -/
theorem refresh_replaces_all_room_records (states : VoiceStates)
    (g u c : String) (t1 t0 now : Int) (snapshot : List VoiceState)
    (hc : c ≠ "") (ht : t0 < t1)
    (hsnap : ∀ vs ∈ snapshot, vs.guildID ++ ":" ++ vs.userID ≠ g ++ ":" ++ u) :
    storeLookupInfo
      (handleRefreshVoiceStates (voiceStateUpdate states g u c t1) g
        (some snapshot) now)
      g u = none := by
  have h1 : ((voiceStateUpdate states g u c t1).filter
      (fun p => !(hasPrefixGo p.1 (g ++ ":")))).lookup (g ++ ":" ++ u) = none := by
    apply lookup_filterKey_none
    intro p _ hpk
    rw [hpk, hasPrefixGo_roomKey]
    rfl
  have h2 := lookup_refreshFold_none snapshot _ (g ++ ":" ++ u) now h1 hsnap
  exact storeLookup_none_of_lookup_none _ g u h2

/-- Witness for the amended C3 at a concrete store, record and snapshot. -/
theorem refresh_replaces_all_room_records_witness :
    storeLookupInfo
      (handleRefreshVoiceStates (voiceStateUpdate [] "g" "u" "chanX" 10) "g"
        (some [{ userID := "w", channelID := "c2", guildID := "g" }]) 5)
      "g" "u" = none :=
  refresh_replaces_all_room_records [] "g" "u" "chanX" 10 5 5
    [{ userID := "w", channelID := "c2", guildID := "g" }]
    (by decide) (by decide) (by decide)

/-- Adding tracks never empties a queue. -/
theorem foldl_add_tracks_ne_nil (q : Queue) (recs : List Track)
    (hq : q.tracks ≠ []) : (recs.foldl Queue.Add q).tracks ≠ [] := by
  induction recs generalizing q with
  | nil => exact hq
  | cons r rest ih =>
      simp only [List.foldl_cons]
      exact ih _ (by simp [Queue.Add])

/-- After the streaming step, a non-empty queue always sends the loop into
its next iteration (the `queue.Next()` at bot.go line 709 succeeds). -/
theorem afterStreamingAdvance_nextIteration (q : Queue) (recs : List Track)
    (hq : q.tracks ≠ []) :
    (afterStreamingAdvance q recs).2 = .nextIteration := by
  have h1 := foldl_add_tracks_ne_nil q recs hq
  have hlen : (recs.foldl Queue.Add q).tracks.length ≠ 0 := by
    simpa [List.length_eq_zero] using h1
  unfold afterStreamingAdvance
  have h2 : (recs.foldl Queue.Add q).Next =
      .ok ((recs.foldl Queue.Add q).tracks.get
            ⟨(Int.tmod ((recs.foldl Queue.Add q).current + 1)
                (Int.ofNat (recs.foldl Queue.Add q).tracks.length)).toNat,
              tmod_toNat_lt _ _ hlen⟩,
          { recs.foldl Queue.Add q with
              current := Int.tmod ((recs.foldl Queue.Add q).current + 1)
                (Int.ofNat (recs.foldl Queue.Add q).tracks.length) }) := by
    unfold Queue.Next
    rw [dif_neg hlen]
  dsimp only
  rw [h2]

/-- Claim C4: a placeholder-sourced (mock) track whose streaming always
fails is attempted exactly once — the `strings.HasPrefix(streamURL,
"mock_"/"spotify_mock_")` test at bot.go line 676 breaks out of the retry
loop before any sleep — and the playback loop then advances to the next
track. -/
theorem mock_track_attempted_once (streamURL : String)
    (attemptFails : Nat → Bool) (q : Queue) (recs : List Track)
    (hmock : isMockURL streamURL = true)
    (hfails : ∀ k, attemptFails k = true) :
    streamTrackWithRetries streamURL attemptFails =
      { attempts := 1, waits := [], streamingSuccessful := false } ∧
    (q.tracks ≠ [] → (afterStreamingAdvance q recs).2 = .nextIteration) := by
  constructor
  · unfold streamTrackWithRetries
    unfold streamRetryGo
    simp [hmock, hfails 0]
  · exact afterStreamingAdvance_nextIteration q recs

/-- Witness for C4: a concrete mock URL, an always-failing stream and a
one-track queue. -/
theorem mock_track_attempted_once_witness :
    streamTrackWithRetries "mock_test_1" (fun _ => true) =
      { attempts := 1, waits := [], streamingSuccessful := false } ∧
    (afterStreamingAdvance (Queue.mk [trackA] 0) []).2 = .nextIteration :=
  ⟨(mock_track_attempted_once "mock_test_1" (fun _ => true)
      (Queue.mk [trackA] 0) [] (by decide) (fun _ => rfl)).1,
   (mock_track_attempted_once "mock_test_1" (fun _ => true)
      (Queue.mk [trackA] 0) [] (by decide) (fun _ => rfl)).2 (by decide)⟩

/-- Claim C5: a real-sourced (non-mock) track whose streaming always fails
is attempted exactly `maxRetries = 3` times, the sleeps between consecutive
attempts are 1 then 2 base units (strictly increasing, linear in the retry
count), and afterwards the track is skipped: the loop advances instead of
aborting. -/
theorem real_track_three_attempts_increasing_backoff (streamURL : String)
    (attemptFails : Nat → Bool) (q : Queue) (recs : List Track)
    (hmock : isMockURL streamURL = false)
    (hfails : ∀ k, attemptFails k = true) :
    streamTrackWithRetries streamURL attemptFails =
      { attempts := 3, waits := [1, 2], streamingSuccessful := false } ∧
    List.Chain' (· < ·) (streamTrackWithRetries streamURL attemptFails).waits ∧
    (∀ i : Fin (streamTrackWithRetries streamURL attemptFails).waits.length,
      (streamTrackWithRetries streamURL attemptFails).waits.get i = i.val + 1) ∧
    (q.tracks ≠ [] → (afterStreamingAdvance q recs).2 = .nextIteration) := by
  have hmain : streamTrackWithRetries streamURL attemptFails =
      { attempts := 3, waits := [1, 2], streamingSuccessful := false } := by
    simp [streamTrackWithRetries, streamRetryGo, hmock, hfails]
  refine ⟨hmain, ?_, ?_, afterStreamingAdvance_nextIteration q recs⟩
  · rw [hmain]
    norm_num [List.chain'_cons]
  · rw [hmain]
    decide

/-- Witness for C5: a concrete non-mock URL with an always-failing stream
and a one-track queue. -/
theorem real_track_three_attempts_witness :
    streamTrackWithRetries "dQw4w9WgXcQ" (fun _ => true) =
      { attempts := 3, waits := [1, 2], streamingSuccessful := false } ∧
    (afterStreamingAdvance (Queue.mk [trackA, trackB] 0) []).2 =
      .nextIteration :=
  ⟨(real_track_three_attempts_increasing_backoff "dQw4w9WgXcQ" (fun _ => true)
      (Queue.mk [trackA, trackB] 0) [] (by decide) (fun _ => rfl)).1,
   (real_track_three_attempts_increasing_backoff "dQw4w9WgXcQ" (fun _ => true)
      (Queue.mk [trackA, trackB] 0) [] (by decide) (fun _ => rfl)).2.2.2
      (by decide)⟩

/-- Claim C6: when the internal voice-state store already holds a non-empty
channel for the requesting (guild, user), the resolution chain returns that
channel at once and performs zero `s.Guild` snapshot fetches, whatever the
external environment would have answered. -/
theorem resolve_store_hit_no_snapshot_fetch (states : VoiceStates)
    (g u : String) (env : DiscordEnv) (vs : VoiceState)
    (h : storeLookupInfo states g u = some vs) :
    resolveVoiceChannel states g u env = (some vs.channelID, 0) := by
  unfold resolveVoiceChannel
  rw [h]

/-- Witness for C6: a populated store entry and a fully populated (but
untouched) environment. -/
theorem resolve_store_hit_witness :
    storeLookupInfo statesW "g" "u" = some vsW ∧
    resolveVoiceChannel statesW "g" "u" envW = (some "chan", 0) :=
  ⟨by decide, resolve_store_hit_no_snapshot_fetch statesW "g" "u" envW vsW
      (by decide)⟩

/-- Claim C7, counterexample.  The claim says pause leaves the playback
loop's control flow untouched (the loop stays active).  In the code,
`handlePause` sets `b.isPlaying = false` (bot.go line 462) and the loop's
next iteration check (bot.go lines 621–625) observes exactly that flag: on
the concrete mid-playback state the check goes from "proceed with trackA"
to "exit". -/
theorem pause_alters_loop_control_cex :
    pauseDemoState.isPlaying = true ∧
    startPlayingLoopCheck pauseDemoState = some trackA ∧
    (handlePause pauseDemoState).1.isPlaying = false ∧
    startPlayingLoopCheck (handlePause pauseDemoState).1 = none := by
  refine ⟨by decide, by decide, by decide, by decide⟩

/-- Claim C7 as amended: while playing, pause leaves the queue (contents and
cursor) unchanged and sets the paused flag on every live stream, but it also
clears the global `isPlaying` flag, which the playback loop reads at the top
of each iteration — so the loop exits at its next check rather than staying
active. -/
theorem pause_sets_paused_clears_flag (b : BotState)
    (h : b.isPlaying = true) :
    (handlePause b).1.queue = b.queue ∧
    (handlePause b).1.isPlaying = false ∧
    (handlePause b).1.voiceConn = b.voiceConn.map (fun p =>
      (p.1, if p.2.hasStream then { p.2 with streamPaused := true } else p.2)) ∧
    startPlayingLoopCheck (handlePause b).1 = none ∧
    (handlePause b).2 = "Playback paused" := by
  unfold handlePause
  rw [h]
  refine ⟨rfl, rfl, rfl, ?_, rfl⟩
  unfold startPlayingLoopCheck
  rfl

/-- Witness for the amended C7 on the concrete mid-playback state. -/
theorem pause_sets_paused_clears_flag_witness :
    (handlePause pauseDemoState).1.queue = pauseDemoState.queue ∧
    (handlePause pauseDemoState).1.isPlaying = false ∧
    startPlayingLoopCheck (handlePause pauseDemoState).1 = none :=
  ⟨(pause_sets_paused_clears_flag pauseDemoState (by decide)).1,
   (pause_sets_paused_clears_flag pauseDemoState (by decide)).2.1,
   (pause_sets_paused_clears_flag pauseDemoState (by decide)).2.2.2.1⟩

/-- Claim C9: the guarded prologue of `startPlaying` makes the playback loop
unique — entering while `isPlaying` is set is a no-op returning immediately
(queue, flag and sessions untouched, no loop started), and from a
not-yet-playing state the first entry becomes the loop while a second entry
on the resulting state starts nothing. -/
theorem startPlaying_at_most_one_loop (b : BotState) :
    (b.isPlaying = true → startPlayingEntry b = (b, false)) ∧
    (b.isPlaying = false →
      (startPlayingEntry b).2 = true ∧
      (startPlayingEntry b).1.queue = b.queue ∧
      (startPlayingEntry b).1.voiceConn = b.voiceConn ∧
      (startPlayingEntry b).1.isPlaying = true ∧
      startPlayingEntry (startPlayingEntry b).1 =
        ((startPlayingEntry b).1, false)) := by
  constructor
  · intro h
    unfold startPlayingEntry
    rw [h]
    rfl
  · intro h
    unfold startPlayingEntry
    rw [h]
    exact ⟨rfl, rfl, rfl, rfl, rfl⟩

/-- Witness for C9: a second start on an already-playing state is a no-op,
and two starts from an idle state yield exactly one active loop. -/
theorem startPlaying_at_most_one_loop_witness :
    startPlayingEntry playingBotState = (playingBotState, false) ∧
    (startPlayingEntry idleBotState).2 = true ∧
    startPlayingEntry (startPlayingEntry idleBotState).1 =
      ((startPlayingEntry idleBotState).1, false) :=
  ⟨(startPlaying_at_most_one_loop playingBotState).1 (by decide),
   ((startPlaying_at_most_one_loop idleBotState).2 (by decide)).1,
   ((startPlaying_at_most_one_loop idleBotState).2 (by decide)).2.2.2.2⟩

end SoulHound
